import Mathlib

/-!
Verification of the user-record model and user-directory service:
`src/examples/python/src/models/user.py` and
`src/examples/python/src/services/user_service.py`.

The embedding is shallow: the `User` dataclass becomes a structure,
construction together with `__post_init__` validation becomes the
fallible function `User.make` (raising `ValueError` is modelled as
`Except.error`), and the mutable `UserService` becomes explicit state
passing over a `UserService` value.  Python's `"@" in email` test on a
single-character needle is character membership, embedded as
`email.data.contains '@'`.  `datetime.now()` reads the clock, so the
timestamp is passed in explicitly as an integer parameter `now`.
-/

/-- The `User` dataclass of `models/user.py`: fields `id : int`,
`email : str`, `name : str`, `created_at : datetime` (timestamps are
modelled as integers). -/
structure User where
  id : Int
  email : String
  name : String
  created_at : Int
deriving Repr, DecidableEq

/-- The two validation failures that `User.__post_init__` can raise
(`ValueError("Email is required")` and `ValueError("Invalid email format")`). -/
inductive ValidationError where
  | missingEmail
  | invalidEmailFormat
deriving Repr, DecidableEq

/-- The exact message string carried by each `ValueError` in the source. -/
def ValidationError.message : ValidationError → String
  | .missingEmail => "Email is required"
  | .invalidEmailFormat => "Invalid email format"

/-- Constructing a `User(id=..., email=..., name=..., created_at=...)`:
the dataclass runs `__post_init__`, which first checks `not self.email`
(the empty string is the only falsy string) and then `"@" not in self.email`.
A raised `ValueError` is the `Except.error` branch. -/
def User.make (id : Int) (email name : String) (created_at : Int) :
    Except ValidationError User :=
  if email = "" then .error .missingEmail
  else if email.data.contains '@' = false then .error .invalidEmailFormat
  else .ok ⟨id, email, name, created_at⟩

/-- The `UserService` class of `services/user_service.py`: its only state
is the private list `_users`. -/
structure UserService where
  users : List User
deriving Repr, DecidableEq

/-- `UserService.__init__`: the list starts empty. -/
def UserService.init : UserService := ⟨[]⟩

/-- `UserService.get_user_by_id`: scan `self._users` in order and return
the first record whose `id` equals `user_id`, else `None`. -/
def UserService.get_user_by_id (s : UserService) (user_id : Int) : Option User :=
  s.users.find? (fun u => u.id == user_id)

/-- `UserService.create_user`: compute `user_id = len(self._users) + 1`,
construct the `User` (validation may raise, in which case nothing is
appended), append it to `self._users` and return it.  The returned pair
carries the new record and the updated service state. -/
def UserService.create_user (s : UserService) (email name : String) (now : Int) :
    Except ValidationError (User × UserService) :=
  match User.make ((s.users.length : Int) + 1) email name now with
  | .error err => .error err
  | .ok user => .ok (user, ⟨s.users ++ [user]⟩)

/-- One call on the service's public API: either a `create_user` call
(with the clock value it observes) or a `get_user_by_id` call. -/
inductive Op where
  | create (email name : String) (now : Int)
  | lookup (user_id : Int)

/-- The state transition performed by one call.  A failed `create_user`
raises before the append, leaving the list as it was; `get_user_by_id`
only reads `self._users`, so it never changes the state. -/
def UserService.step (s : UserService) : Op → UserService
  | .create e n t =>
    match s.create_user e n t with
    | .error _ => s
    | .ok (_, s2) => s2
  | .lookup _ => s

/-- Running a sequence of calls from a given state. -/
def UserService.run (s : UserService) : List Op → UserService
  | [] => s
  | op :: ops => (s.step op).run ops

/-- The directory invariant: the record at position `i` (0-based) of the
stored list has id `i + 1`. -/
def goodIds (s : UserService) : Prop :=
  ∀ i (h : i < s.users.length), (s.users.get ⟨i, h⟩).id = (i : Int) + 1

theorem make_ok_iff (id : Int) (e n : String) (t : Int) (v : User) :
    User.make id e n t = Except.ok v ↔
      (¬ e = "" ∧ e.data.contains '@' = true ∧ v = ⟨id, e, n, t⟩) := by
  unfold User.make
  split
  · next he => simp [he]
  · next he =>
    split
    · next hc =>
      have hc2 : ¬ ('@' ∈ e.data) := by simpa using hc
      simp [he, hc2]
    · next hc =>
      simp only [Bool.not_eq_false] at hc
      have hc2 : '@' ∈ e.data := by simpa using hc
      simp [he, hc2, eq_comm]

theorem make_error_iff (id : Int) (e n : String) (t : Int) (err : ValidationError) :
    User.make id e n t = Except.error err ↔
      ((e = "" ∧ err = ValidationError.missingEmail) ∨
       (¬ e = "" ∧ e.data.contains '@' = false ∧ err = ValidationError.invalidEmailFormat)) := by
  unfold User.make
  split
  · next he => simp [he, eq_comm]
  · next he =>
    split
    · next hc =>
      have hc2 : ¬ ('@' ∈ e.data) := by simpa using hc
      simp [he, hc, hc2, eq_comm]
    · next hc =>
      simp only [Bool.not_eq_false] at hc
      have hc2 : '@' ∈ e.data := by simpa using hc
      simp [he, hc, hc2]

theorem create_user_ok_iff (s : UserService) (e n : String) (t : Int) (u : User)
    (s2 : UserService) :
    s.create_user e n t = Except.ok (u, s2) ↔
      (¬ e = "" ∧ e.data.contains '@' = true ∧
        u = ⟨(s.users.length : Int) + 1, e, n, t⟩ ∧ s2 = ⟨s.users ++ [u]⟩) := by
  unfold UserService.create_user
  cases hm : User.make ((s.users.length : Int) + 1) e n t with
  | error err =>
    simp only [reduceCtorEq, false_iff]
    intro ⟨he, hc, hu, _⟩
    have : User.make ((s.users.length : Int) + 1) e n t = Except.ok u :=
      (make_ok_iff _ e n t u).mpr ⟨he, hc, hu⟩
    rw [hm] at this
    exact absurd this (by simp)
  | ok v =>
    have h := (make_ok_iff ((s.users.length : Int) + 1) e n t v).mp hm
    obtain ⟨he, hc, hv⟩ := h
    subst hv
    simp only [Except.ok.injEq, Prod.mk.injEq]
    constructor
    · rintro ⟨rfl, rfl⟩
      exact ⟨he, hc, rfl, rfl⟩
    · rintro ⟨-, -, rfl, rfl⟩
      exact ⟨rfl, rfl⟩

theorem create_user_error_iff (s : UserService) (e n : String) (t : Int)
    (err : ValidationError) :
    s.create_user e n t = Except.error err ↔
      User.make ((s.users.length : Int) + 1) e n t = Except.error err := by
  unfold UserService.create_user
  cases hm : User.make ((s.users.length : Int) + 1) e n t <;> simp

theorem goodIds_create {s s2 : UserService} {e n : String} {t : Int} {u : User}
    (hg : goodIds s) (h : s.create_user e n t = Except.ok (u, s2)) : goodIds s2 := by
  obtain ⟨-, -, hu, hs2⟩ := (create_user_ok_iff s e n t u s2).mp h
  subst hs2
  intro i hi
  simp only [List.get_eq_getElem] at *
  simp only [List.length_append, List.length_cons, List.length_nil] at hi
  rcases Nat.lt_or_ge i s.users.length with hlt | hge
  · rw [List.getElem_append_left hlt]
    exact hg i hlt
  · have hi0 : i = s.users.length := by omega
    rw [List.getElem_concat_length _ _ _ hi0]
    rw [hu, hi0]

theorem goodIds_step {s : UserService} (op : Op) (hg : goodIds s) : goodIds (s.step op) := by
  cases op with
  | lookup k => exact hg
  | create e n t =>
    cases hc : s.create_user e n t with
    | error err =>
      have hstep : s.step (Op.create e n t) = s := by simp [UserService.step, hc]
      rw [hstep]; exact hg
    | ok p =>
      obtain ⟨u, s2⟩ := p
      have hstep : s.step (Op.create e n t) = s2 := by simp [UserService.step, hc]
      rw [hstep]
      exact goodIds_create hg hc

theorem goodIds_run (ops : List Op) {s : UserService} (hg : goodIds s) :
    goodIds (s.run ops) := by
  induction ops generalizing s with
  | nil => exact hg
  | cons op ops ih => exact ih (goodIds_step op hg)

theorem goodIds_init : goodIds UserService.init := by
  intro i hi
  simp [UserService.init] at hi

theorem goodIds_reachable (ops : List Op) : goodIds (UserService.init.run ops) :=
  goodIds_run ops goodIds_init

theorem step_users_append (s : UserService) (op : Op) :
    ∃ r, (s.step op).users = s.users ++ r := by
  cases op with
  | lookup k => exact ⟨[], by simp [UserService.step]⟩
  | create e n t =>
    cases hc : s.create_user e n t with
    | error err => exact ⟨[], by simp [UserService.step, hc]⟩
    | ok p =>
      obtain ⟨u, s2⟩ := p
      obtain ⟨-, -, -, hs2⟩ := (create_user_ok_iff s e n t u s2).mp hc
      exact ⟨[u], by simp [UserService.step, hc, hs2]⟩

theorem run_users_append (ops : List Op) (s : UserService) :
    ∃ r, (s.run ops).users = s.users ++ r := by
  induction ops generalizing s with
  | nil => exact ⟨[], by simp [UserService.run]⟩
  | cons op ops ih =>
    obtain ⟨r1, h1⟩ := step_users_append s op
    obtain ⟨r2, h2⟩ := ih (s.step op)
    exact ⟨r1 ++ r2, by rw [UserService.run, h2, h1, List.append_assoc]⟩

theorem find_first_of {α : Type} (p : α → Bool) (l : List α) (j : Nat)
    (hj : j < l.length)
    (hbefore : ∀ i (hi : i < l.length), i < j → p (l.get ⟨i, hi⟩) = false)
    (hhit : p (l.get ⟨j, hj⟩) = true) :
    l.find? p = some (l.get ⟨j, hj⟩) := by
  induction l generalizing j with
  | nil => simp at hj
  | cons a tl ih =>
    cases j with
    | zero =>
      simp only [List.get_eq_getElem, List.getElem_cons_zero] at hhit ⊢
      exact List.find?_cons_of_pos tl hhit
    | succ k =>
      have ha : p a = false := by
        have := hbefore 0 (by simp) (Nat.succ_pos k)
        simpa using this
      rw [List.find?_cons_of_neg tl (by simp [ha])]
      have hk : k < tl.length := by simpa using hj
      have := ih k hk
        (fun i hi hik => by
          have := hbefore (i + 1) (by simpa using Nat.succ_lt_succ hi)
            (Nat.succ_lt_succ hik)
          simpa using this)
        (by simpa using hhit)
      simpa using this

theorem find_some_first {α : Type} (p : α → Bool) (l : List α) (u : α)
    (h : l.find? p = some u) :
    ∃ j, ∃ hj : j < l.length, l.get ⟨j, hj⟩ = u ∧ p u = true ∧
      ∀ i (hi : i < l.length), i < j → p (l.get ⟨i, hi⟩) = false := by
  induction l with
  | nil => simp [List.find?] at h
  | cons a tl ih =>
    by_cases ha : p a = true
    · rw [List.find?_cons_of_pos tl ha] at h
      obtain rfl : a = u := by simpa using h
      exact ⟨0, by simp, by simp, ha, fun i hi hik => absurd hik (Nat.not_lt_zero i)⟩
    · have ha2 : p a = false := by simpa using ha
      rw [List.find?_cons_of_neg tl (by simp [ha2])] at h
      obtain ⟨j, hj, hget, hpu, hbefore⟩ := ih h
      refine ⟨j + 1, by simpa using Nat.succ_lt_succ hj, by simpa using hget, hpu, ?_⟩
      intro i hi hik
      cases i with
      | zero => simpa using ha2
      | succ m =>
        have hm : m < tl.length := by simpa using hi
        have := hbefore m hm (Nat.lt_of_succ_lt_succ hik)
        simpa using this

theorem lookup_hit {s : UserService} (hg : goodIds s) (j : Nat)
    (hj : j < s.users.length) :
    s.get_user_by_id ((j : Int) + 1) = some (s.users.get ⟨j, hj⟩) := by
  apply find_first_of
  · intro i hi hij
    have hid := hg i hi
    simp only [beq_eq_false_iff_ne, ne_eq, hid]
    intro hcontra
    have : i = j := by omega
    omega
  · have hid := hg j hj
    simp only [List.get_eq_getElem] at hid
    simp [hid]

theorem lookup_miss {s : UserService} (hg : goodIds s) (k : Int)
    (hk : k < 1 ∨ (s.users.length : Int) < k) :
    s.get_user_by_id k = none := by
  unfold UserService.get_user_by_id
  rw [List.find?_eq_none]
  intro u hu
  obtain ⟨⟨i, hi⟩, rfl⟩ := List.mem_iff_get.mp hu
  have hid := hg i hi
  simp only [beq_iff_eq, hid]
  intro hcontra
  rcases hk with hk | hk
  · omega
  · omega

theorem lookup_unassigned {s : UserService} (k : Int)
    (h : ∀ u ∈ s.users, u.id ≠ k) : s.get_user_by_id k = none := by
  unfold UserService.get_user_by_id
  rw [List.find?_eq_none]
  intro u hu
  simp [h u hu]

theorem run_append (s : UserService) (ops more : List Op) :
    s.run (ops ++ more) = (s.run ops).run more := by
  induction ops generalizing s with
  | nil => rfl
  | cons op ops ih =>
    show (s.step op).run (ops ++ more) = ((s.step op).run ops).run more
    exact ih (s.step op)

/-- Claim C2: on any reachable directory state, a successful `create_user`
returns a record whose id is the previous record count plus one, the count
grows by exactly one, and the stored records have ids `1, 2, ..., N` in
insertion order — so the n-th successful creation yields id n. -/
theorem C2_ids_strictly_increasing (ops : List Op) (e n : String) (t : Int)
    (u : User) (s2 : UserService)
    (hok : (UserService.init.run ops).create_user e n t = Except.ok (u, s2)) :
    u.id = (((UserService.init.run ops).users.length : Int)) + 1
    ∧ s2.users.length = (UserService.init.run ops).users.length + 1
    ∧ ∀ i (h : i < s2.users.length), (s2.users.get ⟨i, h⟩).id = (i : Int) + 1 := by
  have hg : goodIds (UserService.init.run ops) := goodIds_reachable ops
  obtain ⟨-, -, hu, hs2⟩ :=
    (create_user_ok_iff (UserService.init.run ops) e n t u s2).mp hok
  refine ⟨by rw [hu], by rw [hs2]; simp, goodIds_create hg hok⟩

/-- Claim C2 witness: the very first creation on a fresh directory yields
id 1 and a one-element store. -/
theorem C2_witness :
    (⟨1, "a@b.com", "Alice", 0⟩ : User).id =
      (((UserService.init.run []).users.length : Int)) + 1
    ∧ (⟨[⟨1, "a@b.com", "Alice", 0⟩]⟩ : UserService).users.length =
      (UserService.init.run []).users.length + 1
    ∧ ∀ i (h : i < (⟨[⟨1, "a@b.com", "Alice", 0⟩]⟩ : UserService).users.length),
        ((⟨[⟨1, "a@b.com", "Alice", 0⟩]⟩ : UserService).users.get ⟨i, h⟩).id =
          (i : Int) + 1 :=
  C2_ids_strictly_increasing [] "a@b.com" "Alice" 0
    ⟨1, "a@b.com", "Alice", 0⟩ ⟨[⟨1, "a@b.com", "Alice", 0⟩]⟩ (by rfl)

/-- Claim C3: for every directory state, every non-empty email containing
the character `@` and every name (the empty string included),
`create_user` succeeds and returns a record carrying exactly that email
and that name. -/
theorem C3_valid_email_creation (s : UserService) (e n : String) (t : Int)
    (he : ¬ e = "") (hc : e.data.contains '@' = true) :
    ∃ u : User, ∃ s2 : UserService,
      s.create_user e n t = Except.ok (u, s2) ∧ u.email = e ∧ u.name = n := by
  refine ⟨⟨(s.users.length : Int) + 1, e, n, t⟩, ⟨s.users ++ [⟨(s.users.length : Int) + 1, e, n, t⟩]⟩, ?_, rfl, rfl⟩
  exact (create_user_ok_iff s e n t _ _).mpr ⟨he, hc, rfl, rfl⟩

/-- Claim C3 witness: creating `("a@b.com", "")` on a fresh directory
succeeds with that email and the empty name. -/
theorem C3_witness :
    ∃ u : User, ∃ s2 : UserService,
      UserService.init.create_user "a@b.com" "" 0 = Except.ok (u, s2) ∧
        u.email = "a@b.com" ∧ u.name = "" :=
  C3_valid_email_creation UserService.init "a@b.com" "" 0 (by decide) (by decide)

/-- Claim C4: the empty email always fails with the missing-email error,
both for direct construction and through `create_user`; because the
emptiness check runs before the `@` check, the result is never the
invalid-format error. -/
theorem C4_empty_email_missing (id : Int) (n : String) (t : Int) (s : UserService) :
    User.make id "" n t = Except.error ValidationError.missingEmail
    ∧ s.create_user "" n t = Except.error ValidationError.missingEmail := by
  constructor
  · rfl
  · rfl

/-- Claim C5: a non-empty email lacking `@` always fails with the
invalid-email-format error, both for direct construction and through
`create_user`. -/
theorem C5_no_at_invalid_format (id : Int) (e n : String) (t : Int) (s : UserService)
    (he : ¬ e = "") (hc : e.data.contains '@' = false) :
    User.make id e n t = Except.error ValidationError.invalidEmailFormat
    ∧ s.create_user e n t = Except.error ValidationError.invalidEmailFormat := by
  constructor
  · exact (make_error_iff id e n t _).mpr (Or.inr ⟨he, hc, rfl⟩)
  · exact (create_user_error_iff s e n t _).mpr
      ((make_error_iff _ e n t _).mpr (Or.inr ⟨he, hc, rfl⟩))

/-- Claim C5 witness: the email `"carol"` is rejected as invalid format. -/
theorem C5_witness :
    User.make 1 "carol" "Carol" 0 = Except.error ValidationError.invalidEmailFormat
    ∧ UserService.init.create_user "carol" "Carol" 0 =
        Except.error ValidationError.invalidEmailFormat :=
  C5_no_at_invalid_format 1 "carol" "Carol" 0 UserService.init (by decide) (by decide)

/-- Claim C6: a failed creation propagates exactly the validation error of
the underlying `User` construction, and the directory state is unchanged
(no partial append, no id consumed). -/
theorem C6_failure_propagates_state_unchanged (s : UserService) (e n : String)
    (t : Int) (err : ValidationError) :
    (s.create_user e n t = Except.error err ↔
      User.make ((s.users.length : Int) + 1) e n t = Except.error err)
    ∧ (s.create_user e n t = Except.error err → s.step (Op.create e n t) = s) := by
  refine ⟨create_user_error_iff s e n t err, fun h => ?_⟩
  simp [UserService.step, h]

/-- Claim C6 witness: the failed creation of `("carol", "Carol")` on a
fresh directory leaves the directory state unchanged. -/
theorem C6_witness :
    UserService.init.step (Op.create "carol" "Carol" 0) = UserService.init :=
  (C6_failure_propagates_state_unchanged UserService.init "carol" "Carol" 0
    ValidationError.invalidEmailFormat).2 (by rfl)

/-- Claim C1: after a successful `create_user` on a reachable directory
state returns record `u`, `get_user_by_id u.id` returns exactly `u` even
after any further sequence of calls; and any id carried by no stored
record is looked up as `none`. -/
theorem C1_lookup_of_created (ops more : List Op) (e n : String) (t : Int)
    (u : User) (s2 : UserService) (k : Int)
    (hok : (UserService.init.run ops).create_user e n t = Except.ok (u, s2))
    (hk : ∀ v ∈ (s2.run more).users, v.id ≠ k) :
    (s2.run more).get_user_by_id u.id = some u
    ∧ (s2.run more).get_user_by_id k = none := by
  refine ⟨?_, lookup_unassigned k hk⟩
  have hg : goodIds (UserService.init.run ops) := goodIds_reachable ops
  obtain ⟨-, -, hu, hs2⟩ :=
    (create_user_ok_iff (UserService.init.run ops) e n t u s2).mp hok
  have husers : s2.users = (UserService.init.run ops).users ++ [u] := by
    rw [hs2]
  have hg2 : goodIds s2 := goodIds_create hg hok
  have hgt : goodIds (s2.run more) := goodIds_run more hg2
  obtain ⟨r, hr⟩ := run_users_append more s2
  set N := (UserService.init.run ops).users.length with hN
  have hNlt : N < (s2.run more).users.length := by
    rw [hr, husers]
    simp
  have hget : (s2.run more).users.get ⟨N, hNlt⟩ = u := by
    simp only [List.get_eq_getElem]
    have hrw : (s2.run more).users = ((UserService.init.run ops).users ++ [u]) ++ r := by
      rw [hr, husers]
    rw [List.getElem_of_eq hrw]
    rw [List.getElem_append_left (by simp)]
    exact List.getElem_concat_length _ _ _ rfl _
  have hfind := lookup_hit hgt N hNlt
  rw [hget] at hfind
  have hid : u.id = (N : Int) + 1 := by rw [hu]
  rw [hid]
  exact hfind

/-- Claim C1 witness: after creating Alice on a fresh directory and then
Bob, looking up Alice's id returns her exact record and looking up id 99
returns `none`. -/
theorem C1_witness :
    ((⟨[⟨1, "a@b.com", "Alice", 0⟩]⟩ : UserService).run
        [Op.create "bob@x.com" "Bob" 1]).get_user_by_id
      (⟨1, "a@b.com", "Alice", 0⟩ : User).id = some ⟨1, "a@b.com", "Alice", 0⟩
    ∧ ((⟨[⟨1, "a@b.com", "Alice", 0⟩]⟩ : UserService).run
        [Op.create "bob@x.com" "Bob" 1]).get_user_by_id 99 = none :=
  C1_lookup_of_created [] [Op.create "bob@x.com" "Bob" 1] "a@b.com" "Alice" 0
    ⟨1, "a@b.com", "Alice", 0⟩ ⟨[⟨1, "a@b.com", "Alice", 0⟩]⟩ 99
    (by rfl) (by decide)

/-- Claim C8: in every reachable directory state the stored records carry
pairwise distinct ids, and a record (hence its id) at a given position is
unchanged by any further sequence of calls. -/
theorem C8_ids_unique_and_stable (ops more : List Op) (i j : Nat)
    (hi : i < (UserService.init.run ops).users.length)
    (hj : j < (UserService.init.run ops).users.length)
    (hne : i ≠ j) :
    ((UserService.init.run ops).users.get ⟨i, hi⟩).id ≠
      ((UserService.init.run ops).users.get ⟨j, hj⟩).id
    ∧ ∃ hi2 : i < (UserService.init.run (ops ++ more)).users.length,
        (UserService.init.run (ops ++ more)).users.get ⟨i, hi2⟩ =
          (UserService.init.run ops).users.get ⟨i, hi⟩ := by
  have hg : goodIds (UserService.init.run ops) := goodIds_reachable ops
  constructor
  · rw [hg i hi, hg j hj]
    intro hcontra
    exact hne (by omega)
  · rw [run_append]
    obtain ⟨r, hr⟩ := run_users_append more (UserService.init.run ops)
    have hi2 : i < ((UserService.init.run ops).run more).users.length := by
      rw [hr]
      simp only [List.length_append]
      omega
    refine ⟨hi2, ?_⟩
    simp only [List.get_eq_getElem]
    rw [List.getElem_of_eq hr]
    exact List.getElem_append_left hi

/-- Claim C8 witness: after two creations the two stored records have
distinct ids, and the first record survives a third creation unchanged. -/
theorem C8_witness :
    ((UserService.init.run
          [Op.create "a@b.com" "A" 0, Op.create "b@c.com" "B" 1]).users.get
        ⟨0, by decide⟩).id ≠
      ((UserService.init.run
          [Op.create "a@b.com" "A" 0, Op.create "b@c.com" "B" 1]).users.get
        ⟨1, by decide⟩).id
    ∧ ∃ hi2 : 0 < (UserService.init.run
          ([Op.create "a@b.com" "A" 0, Op.create "b@c.com" "B" 1] ++
            [Op.create "c@d.com" "C" 2])).users.length,
        (UserService.init.run
            ([Op.create "a@b.com" "A" 0, Op.create "b@c.com" "B" 1] ++
              [Op.create "c@d.com" "C" 2])).users.get ⟨0, hi2⟩ =
          (UserService.init.run
              [Op.create "a@b.com" "A" 0, Op.create "b@c.com" "B" 1]).users.get
            ⟨0, by decide⟩ :=
  C8_ids_unique_and_stable
    [Op.create "a@b.com" "A" 0, Op.create "b@c.com" "B" 1]
    [Op.create "c@d.com" "C" 2] 0 1 (by decide) (by decide) (by decide)

/-- Claim C9: `get_user_by_id` changes nothing in the directory state,
returns `none` exactly when no stored record carries the id (a miss is a
normal absent result, not an error), and a hit is the first record in
insertion order whose id matches. -/
theorem C9_lookup_semantics (s : UserService) (k : Int) :
    s.step (Op.lookup k) = s
    ∧ (s.get_user_by_id k = none ↔ ∀ u ∈ s.users, u.id ≠ k)
    ∧ ∀ u : User, s.get_user_by_id k = some u →
        ∃ j, ∃ hj : j < s.users.length, s.users.get ⟨j, hj⟩ = u ∧ u.id = k ∧
          ∀ i (hi : i < s.users.length), i < j → (s.users.get ⟨i, hi⟩).id ≠ k := by
  refine ⟨rfl, ?_, ?_⟩
  · unfold UserService.get_user_by_id
    rw [List.find?_eq_none]
    constructor
    · intro h u hu
      simpa using h u hu
    · intro h u hu
      simpa using h u hu
  · intro u hu
    unfold UserService.get_user_by_id at hu
    obtain ⟨j, hj, hget, hpu, hbefore⟩ := find_some_first _ _ _ hu
    refine ⟨j, hj, hget, by simpa using hpu, ?_⟩
    intro i hi hij
    simpa using hbefore i hi hij

/-- Claim C9 witness: on a two-record directory, a lookup changes nothing
and looking up the unassigned id 99 returns `none`. -/
theorem C9_witness :
    (⟨[⟨1, "a@b.com", "A", 0⟩, ⟨2, "b@c.com", "B", 1⟩]⟩ : UserService).step
        (Op.lookup 2) = ⟨[⟨1, "a@b.com", "A", 0⟩, ⟨2, "b@c.com", "B", 1⟩]⟩
    ∧ (⟨[⟨1, "a@b.com", "A", 0⟩, ⟨2, "b@c.com", "B", 1⟩]⟩ :
        UserService).get_user_by_id 99 = none :=
  ⟨(C9_lookup_semantics ⟨[⟨1, "a@b.com", "A", 0⟩, ⟨2, "b@c.com", "B", 1⟩]⟩ 2).1,
   (C9_lookup_semantics ⟨[⟨1, "a@b.com", "A", 0⟩, ⟨2, "b@c.com", "B", 1⟩]⟩ 99).2.1.mpr
     (by decide)⟩

/-- Claim C10: in every reachable directory state with N records, the
record at 1-based position i has id exactly i; hence ids below 1 or above
N are looked up as `none` and every id between 1 and N as a record. -/
theorem C10_ids_match_positions (ops : List Op) (k : Int) :
    (∀ i (h : i < (UserService.init.run ops).users.length),
        ((UserService.init.run ops).users.get ⟨i, h⟩).id = (i : Int) + 1)
    ∧ (k < 1 ∨ ((UserService.init.run ops).users.length : Int) < k →
        (UserService.init.run ops).get_user_by_id k = none)
    ∧ (1 ≤ k → k ≤ ((UserService.init.run ops).users.length : Int) →
        ∃ u : User, (UserService.init.run ops).get_user_by_id k = some u ∧
          u.id = k) := by
  have hg : goodIds (UserService.init.run ops) := goodIds_reachable ops
  refine ⟨hg, fun hk => lookup_miss hg k hk, fun h1 h2 => ?_⟩
  have hj : (k - 1).toNat < (UserService.init.run ops).users.length := by omega
  have hkj : (((k - 1).toNat : Int)) + 1 = k := by omega
  have hfind := lookup_hit hg (k - 1).toNat hj
  rw [hkj] at hfind
  refine ⟨(UserService.init.run ops).users.get ⟨(k - 1).toNat, hj⟩, hfind, ?_⟩
  rw [hg (k - 1).toNat hj]
  omega

/-- Claim C10 witness: with one stored record, id 99 is absent and id 1
is present with matching id. -/
theorem C10_witness :
    (UserService.init.run [Op.create "a@b.com" "A" 0]).get_user_by_id 99 = none
    ∧ ∃ u : User,
        (UserService.init.run [Op.create "a@b.com" "A" 0]).get_user_by_id 1 =
          some u ∧ u.id = 1 :=
  ⟨(C10_ids_match_positions [Op.create "a@b.com" "A" 0] 99).2.1 (by decide),
   (C10_ids_match_positions [Op.create "a@b.com" "A" 0] 1).2.2 (by decide)
     (by decide)⟩
